import Mathlib

/-
Verification development for the identity-service credential core.

Part 1 embeds the password policy engine
(package password, Service.ValidatePassword / Service.GenerateRandomPassword).
Part 2 embeds the token service
(package token, Service.generateToken / ValidateToken / RevokeToken / IsTokenRevoked)
together with the Redis-backed cache collaborator
(package redis, CacheService.Get / Set) and the two key managers
(LocalKeyManager / RedisKeyManager).

Modelling conventions:
- Go strings are modelled as List Char restricted to the ASCII range; the
  unicode character classes (unicode.IsUpper and friends) are modelled on
  that range, which covers every alphabet the password code and all claims
  use.  Go len on ASCII strings equals the character count.
- Go time.Time and time.Duration are both modelled as Int instants measured
  in seconds (the code only ever adds a duration to an instant and compares
  instants, via Unix epoch seconds).
- Machine bytes are modelled as Nat with explicit reduction modulo 256.
- A Go panic (index out of range, integer divide by zero) is modelled as
  the Option value none.
-/

deriving instance DecidableEq for Except

namespace Ident

/-! Section: Password policy engine (package password) -/

/-- PasswordConfig from internal/domain/services (package services).
Go declares the lengths as int; only non-negative values are meaningful and
the model uses Nat. -/
structure PasswordConfig where
  minLength : Nat
  requireUppercase : Bool
  requireLowercase : Bool
  requireNumbers : Bool
  requireSpecialChars : Bool
  maxLength : Nat
  deriving DecidableEq

/-- The upperLetters constant of GenerateRandomPassword. -/
def upperLetters : List Char := "ABCDEFGHIJKLMNOPQRSTUVWXYZ".toList

/-- The lowerLetters constant of GenerateRandomPassword. -/
def lowerLetters : List Char := "abcdefghijklmnopqrstuvwxyz".toList

/-- The digits constant of GenerateRandomPassword. -/
def digitChars : List Char := "0123456789".toList

/-- The specials constant of GenerateRandomPassword (26 characters). -/
def specialChars : List Char := "!@#$%^&*()_+-=[]\x7b\x7d|;:,.<>?".toList

/-- unicode.IsUpper restricted to ASCII. -/
def isUpperA (c : Char) : Bool := 'A' ≤ c && c ≤ 'Z'

/-- unicode.IsLower restricted to ASCII. -/
def isLowerA (c : Char) : Bool := 'a' ≤ c && c ≤ 'z'

/-- unicode.IsNumber restricted to ASCII. -/
def isDigitA (c : Char) : Bool := '0' ≤ c && c ≤ '9'

/-- unicode.IsPunct or unicode.IsSymbol, restricted to ASCII: exactly the
printable ASCII characters that are neither letters, digits, nor space. -/
def isSpecialA (c : Char) : Bool :=
  32 < c.toNat && c.toNat < 127 && !isUpperA c && !isLowerA c && !isDigitA c

/-- The hasUpper flag computed by the character-class switch of
ValidatePassword. -/
def hasUpper (p : List Char) : Bool := p.any isUpperA

/-- The hasLower flag of ValidatePassword.  The Go switch marks only the
first matching case per character, hence the guard on isUpperA. -/
def hasLower (p : List Char) : Bool := p.any fun c => !isUpperA c && isLowerA c

/-- The hasNumber flag of ValidatePassword. -/
def hasNumber (p : List Char) : Bool :=
  p.any fun c => !isUpperA c && !isLowerA c && isDigitA c

/-- The hasSpecial flag of ValidatePassword. -/
def hasSpecial (p : List Char) : Bool :=
  p.any fun c => !isUpperA c && !isLowerA c && !isDigitA c && isSpecialA c

/-- strings.ToLower per character, ASCII range (used to model the (?i)
regexp flag). -/
def toLowerA (c : Char) : Char :=
  if isUpperA c then Char.ofNat (c.toNat + 32) else c

/-- Substring containment over character lists: regexp matching of a
literal word against a haystack. -/
def containsSub (needle hay : List Char) : Bool :=
  match hay with
  | [] => needle.isEmpty
  | _ :: rest => needle.isPrefixOf hay || containsSub needle rest

/-- Case-insensitive literal-word containment, the model of a
(?i)word regexp match; the needle is given in lowercase. -/
def containsCI (needle hay : List Char) : Bool :=
  containsSub needle (hay.map toLowerA)

/-- The regexp d-class quantified four times: four consecutive ASCII digits
somewhere in the string (RE2 d is ASCII-only). -/
def fourConsecutiveDigits : List Char → Bool
  | a :: b :: c :: d :: rest =>
      (isDigitA a && isDigitA b && isDigitA c && isDigitA d)
        || fourConsecutiveDigits (b :: c :: d :: rest)
  | _ => false

/-- The weak-pattern deny-list loop of ValidatePassword.

The source lists five patterns.  The fourth one is a backreference
pattern (a dot group followed by a backslash-one repetition, intended to
catch a character repeated three or more times).  Go regexp is RE2 and
rejects backreferences at compile time; regexp.MatchString then returns
matched equal to false together with an error, and the source discards the
error.  At run time that pattern therefore never matches anything, so the
faithful embedding omits it. -/
def hasWeakPattern (p : List Char) : Bool :=
  fourConsecutiveDigits p
    || containsCI "password".toList p
    || containsCI "admin".toList p
    || containsCI "qwerty".toList p
    || containsCI "asdf".toList p

/-- The distinct failure messages of ValidatePassword. -/
inductive PwViolation where
  | tooShort
  | tooLong
  | noUpper
  | noLower
  | noNumber
  | noSpecial
  | weakPattern
  deriving DecidableEq

/-- Service.ValidatePassword: some violation when the Go method returns a
non-nil error, none when it accepts. -/
def validatePassword (cfg : PasswordConfig) (p : List Char) : Option PwViolation :=
  if p.length < cfg.minLength then some .tooShort
  else if cfg.maxLength < p.length then some .tooLong
  else if cfg.requireUppercase && !hasUpper p then some .noUpper
  else if cfg.requireLowercase && !hasLower p then some .noLower
  else if cfg.requireNumbers && !hasNumber p then some .noNumber
  else if cfg.requireSpecialChars && !hasSpecial p then some .noSpecial
  else if hasWeakPattern p then some .weakPattern
  else none

/-- The number of enabled character classes, the first minLength computed by
GenerateRandomPassword. -/
def enabledCount (cfg : PasswordConfig) : Nat :=
  (if cfg.requireUppercase then 1 else 0)
    + (if cfg.requireLowercase then 1 else 0)
    + (if cfg.requireNumbers then 1 else 0)
    + (if cfg.requireSpecialChars then 1 else 0)

/-- The length variable of GenerateRandomPassword: the larger of the class
count and the configured minimum, plus a fixed margin of four. -/
def genLength (cfg : PasswordConfig) : Nat :=
  max (enabledCount cfg) cfg.minLength + 4

/-- The allChars union built by GenerateRandomPassword. -/
def allChars (cfg : PasswordConfig) : List Char :=
  (if cfg.requireUppercase then upperLetters else [])
    ++ (if cfg.requireLowercase then lowerLetters else [])
    ++ (if cfg.requireNumbers then digitChars else [])
    ++ (if cfg.requireSpecialChars then specialChars else [])

/-- The mandatory one-character-per-enabled-class segment of
GenerateRandomPassword; b i is byte i of the entropy buffer.  The source
indexes bytes 0 to 3 by class, not by position. -/
def mandatoryChars (cfg : PasswordConfig) (b : Nat → Nat) : List Char :=
  (if cfg.requireUppercase then [upperLetters.getD (b 0 % upperLetters.length) ' '] else [])
    ++ (if cfg.requireLowercase then [lowerLetters.getD (b 1 % lowerLetters.length) ' '] else [])
    ++ (if cfg.requireNumbers then [digitChars.getD (b 2 % digitChars.length) ' '] else [])
    ++ (if cfg.requireSpecialChars then [specialChars.getD (b 3 % specialChars.length) ' '] else [])

/-- The fill loop of GenerateRandomPassword: position i takes the allChars
entry selected by byte i reduced modulo the alphabet size, and the loop
runs n more times (the Go loop from the current length up to length runs
exactly length minus current-length iterations, the position and the byte
index coinciding throughout).  An empty alphabet reproduces the Go
divide-by-zero panic, modelled as none. -/
def fillN (ac : List Char) (b : Nat → Nat) : Nat → Nat → List Char → Option (List Char)
  | _, 0, p => some p
  | i, n + 1, p =>
      if ac.length = 0 then none
      else fillN ac b (i + 1) n (p ++ [ac.getD (b i % ac.length) ' '])

/-- The in-place swap of two positions of the shuffle loop. -/
def swapL (p : List Char) (i j : Nat) : List Char :=
  (p.set i (p.getD j ' ')).set j (p.getD i ' ')

/-- The Fisher-Yates shuffle loop of GenerateRandomPassword, indices
counting down from the first argument to one.  At index i the source
computes byte i modulo byte of i plus one; the byte conversion reduces
modulo 256, and a zero modulus reproduces the Go divide-by-zero panic,
modelled as none. -/
def shuffleFrom (b : Nat → Nat) : Nat → List Char → Option (List Char)
  | 0, p => some p
  | i + 1, p =>
      let m := (i + 2) % 256
      if m = 0 then none
      else shuffleFrom b i (swapL p (i + 1) (b (i + 1) % m))

/-- Service.GenerateRandomPassword over an entropy stream (byte i of the
secure random buffer is stream i reduced modulo 256; crypto/rand reads are
modelled as always succeeding).  none models a Go panic. -/
def generateRandomPassword (cfg : PasswordConfig) (stream : Nat → Nat) : Option (List Char) :=
  let b : Nat → Nat := fun i => stream i % 256
  let len := genLength cfg
  let p := mandatoryChars cfg b
  match fillN (allChars cfg) b p.length (len - p.length) p with
  | none => none
  | some filled => shuffleFrom b (len - 1) filled

/-! Section: Token service (package token) and Redis cache collaborator -/

/-- services.TokenType. -/
inductive TokenType where
  | access
  | refresh
  | reset
  | verification
  deriving DecidableEq

/-- services.TokenClaims.  The UUID of the user is modelled as an opaque
Nat identifier; the Go uuid String and Parse functions form a bijection
between values and their canonical encodings, modelled as the identity. -/
structure TokenClaims where
  userID : Nat
  email : String
  username : String
  role : String
  tokenType : TokenType
  deriving DecidableEq

/-- services.TokenConfig.  Durations as Int seconds; the SigningKey field
of the Go struct is never read by the token service and is omitted. -/
structure TokenConfig where
  accessTokenDuration : Int
  refreshTokenDuration : Int
  resetTokenDuration : Int
  verificationTokenDuration : Int
  deriving DecidableEq

/-- Raw HMAC key material, a byte slice. -/
def SigningKey : Type := List Nat

instance : DecidableEq SigningKey := inferInstanceAs (DecidableEq (List Nat))

/-- The declared signing method of a parsed JWT header.  HS256 is what
generateToken uses; rsa stands for any non-HMAC method a foreign token
could declare. -/
inductive SigningAlg where
  | hs256
  | rsa
  deriving DecidableEq

/-- The jwt keyfunc test: the method must be an HMAC family method. -/
def SigningAlg.isHMAC : SigningAlg → Bool
  | .hs256 => true
  | .rsa => false

/-- A signed JWT as built by Service.generateToken: the claims-map fields
user id, email, username, token type, iat, exp, together with the declared
method and the key that produced the signature (HMAC signature verification
succeeds exactly when the verifier supplies the same key bytes).  Note that
the source builds jwt.MapClaims WITHOUT a role entry, so a signed token
carries no role. -/
structure SignedToken where
  userID : Nat
  email : String
  username : String
  tokenType : TokenType
  iat : Int
  exp : Int
  alg : SigningAlg
  sigKey : SigningKey
  deriving DecidableEq

/-- The error outcomes of CacheService.Get and Set (package redis):
keyNotFound models services.ErrCacheKeyNotFound returned when the Redis key
is absent or already expired; connectionFailed models any other client
error (store unreachable). -/
inductive CacheErr where
  | keyNotFound
  | connectionFailed
  deriving DecidableEq

/-- The state of the shared Redis store as the token code uses it.  The
revoked field holds the entries under the revoked-token key namespace,
keyed by the serialized token (JWT serialization is injective on the token
content, so the token value itself is the key), with the stored boolean
value and the absolute expiry instant of the Redis TTL.  The signingKeys
field holds the entries under the signing-key namespace, keyed by token
type; the base64 transport encoding of RedisKeyManager is a bijection and
is modelled as the identity, so values are key bytes.  The two namespaces
have distinct fixed prefixes and never collide. -/
structure CacheState where
  reachable : Bool
  revoked : List (SignedToken × Bool × Int)
  signingKeys : List (TokenType × SigningKey)
  deriving DecidableEq

/-- Newest-first lookup in the revocation namespace (a later Set on the
same key overwrites, modelled by prepending and taking the first match). -/
def lookupMarker : List (SignedToken × Bool × Int) → SignedToken → Option (Bool × Int)
  | [], _ => none
  | (t, v, e) :: rest, tok => if t = tok then some (v, e) else lookupMarker rest tok

/-- Newest-first lookup in the signing-key namespace. -/
def lookupKey : List (TokenType × SigningKey) → TokenType → Option SigningKey
  | [], _ => none
  | (t, k) :: rest, ty => if t = ty then some k else lookupKey rest ty

/-- CacheService.Get on a revoked-token key at instant now: a connection
error when the store is unreachable, services.ErrCacheKeyNotFound when no
live entry exists (Redis drops a key once its TTL elapses), otherwise the
stored boolean. -/
def cacheGetRevoked (c : CacheState) (now : Int) (tok : SignedToken) : Except CacheErr Bool :=
  if c.reachable = false then .error .connectionFailed
  else
    match lookupMarker c.revoked tok with
    | some (v, e) => if now < e then .ok v else .error .keyNotFound
    | none => .error .keyNotFound

/-- CacheService.Get on a signing-key key (stored with zero expiration,
hence no TTL test). -/
def cacheGetKey (c : CacheState) (ty : TokenType) : Except CacheErr SigningKey :=
  if c.reachable = false then .error .connectionFailed
  else
    match lookupKey c.signingKeys ty with
    | some k => .ok k
    | none => .error .keyNotFound

/-- Service.IsTokenRevoked: delegates to the cache read of the
revoked-token key for this token; a read error is wrapped and surfaced, a
hit yields the stored boolean. -/
def isTokenRevoked (c : CacheState) (now : Int) (tok : SignedToken) : Except CacheErr Bool :=
  cacheGetRevoked c now tok

/-- The error outcomes of the token service.  The three parse constructors
all surface as the wrapped failed-to-parse error of ValidateToken, with the
jwt sentinel in the chain distinguishing them. -/
inductive TokenErr where
  | revocationCheckFailed (e : CacheErr)
  | revoked
  | signingKeyUnavailable
  | parseBadMethod
  | parseBadSignature
  | parseExpired
  | invalidTokenType
  | revokeFailed (e : CacheErr)
  deriving DecidableEq

/-- The errors ValidateToken classifies as invalid-token per the spec
taxonomy: malformed or non-HMAC method, wrong signature, wrong declared
kind. -/
def TokenErr.isInvalidToken : TokenErr → Bool
  | .parseBadMethod => true
  | .parseBadSignature => true
  | .invalidTokenType => true
  | _ => false

/-- The key manager as the token service sees it at a fixed state:
KeyManager.GetSigningKey per token type, possibly failing.  The service
level claims consider a fixed manager state (no rotation between the calls
involved). -/
def KeySource : Type := TokenType → Except Unit SigningKey

/-- Service.generateToken: stamps iat now and exp now plus duration, signs
with the key the manager supplies for the claims own token type, using
HS256.  The jwt claims map contains user id, email, username, token type,
iat and exp only — the Role field of TokenClaims is not serialized. -/
def generateToken (km : KeySource) (claims : TokenClaims) (duration : Int) (now : Int) : Except TokenErr SignedToken :=
  match km claims.tokenType with
  | .error _ => .error .signingKeyUnavailable
  | .ok key =>
      .ok { userID := claims.userID, email := claims.email,
            username := claims.username, tokenType := claims.tokenType,
            iat := now, exp := now + duration, alg := .hs256, sigKey := key }

/-- Service.GenerateAccessToken. -/
def generateAccessToken (cfg : TokenConfig) (km : KeySource) (claims : TokenClaims) (now : Int) : Except TokenErr SignedToken :=
  generateToken km claims cfg.accessTokenDuration now

/-- Service.GenerateRefreshToken. -/
def generateRefreshToken (cfg : TokenConfig) (km : KeySource) (claims : TokenClaims) (now : Int) : Except TokenErr SignedToken :=
  generateToken km claims cfg.refreshTokenDuration now

/-- Service.GenerateResetToken. -/
def generateResetToken (cfg : TokenConfig) (km : KeySource) (claims : TokenClaims) (now : Int) : Except TokenErr SignedToken :=
  generateToken km claims cfg.resetTokenDuration now

/-- Service.GenerateVerificationToken. -/
def generateVerificationToken (cfg : TokenConfig) (km : KeySource) (claims : TokenClaims) (now : Int) : Except TokenErr SignedToken :=
  generateToken km claims cfg.verificationTokenDuration now

/-- Service.ValidateToken.  Steps in source order: the revocation check
(any read error is wrapped and returned; a true marker returns the revoked
error), the signing-key fetch for the REQUESTED type, jwt.Parse (keyfunc
method test, HMAC signature verification against the fetched key, then
registered-claims validation: expired when now has reached exp), the
token-type equality test, and finally the claims struct is rebuilt.  The
rebuilt struct sets UserID, Email, Username and TokenType only, so Role is
the zero value, the empty string.  The user-id string always parses back
because generateToken wrote a canonical encoding (identity in the model). -/
def validateToken (km : KeySource) (c : CacheState) (now : Int) (tok : SignedToken) (expected : TokenType) : Except TokenErr TokenClaims :=
  match isTokenRevoked c now tok with
  | .error e => .error (.revocationCheckFailed e)
  | .ok true => .error .revoked
  | .ok false =>
      match km expected with
      | .error _ => .error .signingKeyUnavailable
      | .ok key =>
          if tok.alg.isHMAC = false then .error .parseBadMethod
          else if tok.sigKey ≠ key then .error .parseBadSignature
          else if tok.exp ≤ now then .error .parseExpired
          else if tok.tokenType ≠ expected then .error .invalidTokenType
          else
            .ok { userID := tok.userID, email := tok.email,
                  username := tok.username, role := "",
                  tokenType := expected }

/-- Service.RevokeToken: one cache Set of the boolean true under the
revoked-token key for this token, with expiration AccessTokenDuration
(regardless of the kind of the token being revoked); a Set failure is
wrapped and returned. -/
def revokeToken (cfg : TokenConfig) (c : CacheState) (now : Int) (tok : SignedToken) : Except TokenErr CacheState :=
  if c.reachable then
    .ok { c with revoked := (tok, true, now + cfg.accessTokenDuration) :: c.revoked }
  else .error (.revokeFailed .connectionFailed)

/-! Section: Key managers (key_manager.go) -/

/-- The key map of LocalKeyManager, newest entry first. -/
def LocalKeys : Type := List (TokenType × SigningKey)

/-- LocalKeyManager.GetSigningKey: return the stored key for the type, or
lazily provision one via RotateKey (fresh is the material crypto/rand
produced; reads are modelled as always succeeding) and return it together
with the updated map. -/
def localGetSigningKey (st : LocalKeys) (fresh : SigningKey) (ty : TokenType) : SigningKey × LocalKeys :=
  match lookupKey st ty with
  | some k => (k, st)
  | none => (fresh, (ty, fresh) :: st)

/-- RedisKeyManager.GetSigningKey: read the encoded key for the type from
the shared store; on ANY read error (store unreachable or key absent) fall
back to the local tier and surface no error; on a successful read decode
and return the stored key (the base64 round trip is the identity in the
model, and values written by RotateKey always decode). -/
def redisGetSigningKey (c : CacheState) (st : LocalKeys) (fresh : SigningKey) (ty : TokenType) : Except Unit (SigningKey × LocalKeys) :=
  match cacheGetKey c ty with
  | .error _ => .ok (localGetSigningKey st fresh ty)
  | .ok k => .ok (k, st)

/-! Section: Concrete fixtures -/

/-- A concrete 256-bit-class key (abbreviated byte list). -/
def key0 : SigningKey := [1, 2, 3]

/-- A key manager state that serves key0 for every type. -/
def km0 : KeySource := fun _ => .ok key0

/-- A concrete configuration: short-lived access tokens (10), longer-lived
refresh, reset and verification tokens (100). -/
def cfg0 : TokenConfig := ⟨10, 100, 100, 100⟩

/-- A reachable store with no entries: the state any fresh deployment is
in, and the state of every token that was never revoked. -/
def cacheEmpty : CacheState := ⟨true, [], []⟩

/-- An unreachable store. -/
def cacheDown : CacheState := ⟨false, [], []⟩

/-- Concrete input claims, with a non-empty role. -/
def claims0 : TokenClaims := ⟨7, "a@b.c", "alice", "admin", .access⟩

/-- The access token generateToken builds from claims0 at instant 0 under
cfg0 and km0. -/
def tok0 : SignedToken := ⟨7, "a@b.c", "alice", .access, 0, 10, .hs256, key0⟩

/-- A store holding a revocation entry for tok0 whose stored boolean is
false: the only store state in which the revocation read can report
not-revoked without an error. -/
def cacheFalseMarker : CacheState := ⟨true, [(tok0, false, 1000)], []⟩

/-- A refresh token issued at instant 0 under cfg0 (expiry 100). -/
def tokR : SignedToken := ⟨7, "a@b.c", "alice", .refresh, 0, 100, .hs256, key0⟩

/-- The store after revokeToken cfg0 cacheEmpty 0 tokR: marker true with
expiry 0 + AccessTokenDuration = 10. -/
def cacheRevokedR : CacheState := ⟨true, [(tokR, true, 10)], []⟩

/-- An all-classes password policy with length bounds 8 to 64. -/
def cfg8 : PasswordConfig := ⟨8, true, true, true, true, 64⟩

/-- A numbers-only password policy with minimum length 4. -/
def cfgNum : PasswordConfig := ⟨4, false, false, true, false, 100⟩

/-- A policy with every character class disabled. -/
def cfgNone : PasswordConfig := ⟨8, false, false, false, false, 64⟩

/-- The all-zero entropy stream. -/
def zeros : Nat → Nat := fun _ => 0

/-! Section: Claim theorems: token service -/

/-- Claim C1: evaluation of the round trip at the failing input.  Issuing
an access token for claims0 succeeds, but validating it 5 seconds later
(well before its 10-second expiry, never revoked, reachable store) returns
the wrapped revocation-check error, because the cache read of an absent
revoked-token key yields ErrCacheKeyNotFound and IsTokenRevoked surfaces
it.  Moreover, even in the one store state where the revocation read
reports false without error, the returned claims have Role erased to the
empty string and are therefore not equal to the input claims. -/
theorem roundTrip_fails_at_failing_input :
    generateAccessToken cfg0 km0 claims0 0 = .ok tok0
    ∧ validateToken km0 cacheEmpty 5 tok0 .access
        = .error (.revocationCheckFailed .keyNotFound)
    ∧ validateToken km0 cacheFalseMarker 5 tok0 .access
        = .ok { userID := 7, email := "a@b.c", username := "alice",
                role := "", tokenType := .access }
    ∧ ({ userID := 7, email := "a@b.c", username := "alice", role := "",
         tokenType := TokenType.access } : TokenClaims) ≠ claims0 := by
  refine ⟨rfl, rfl, rfl, ?_⟩
  decide

/-- Claim C2, counterexample: a refresh token revoked immediately after
issuance under cfg0 (access duration 10, refresh duration 100) is
validated at instant 50, before its own expiry 100, yet the revocation
marker lapsed at instant 10, so ValidateToken does not fail with the
revoked error (it fails with the wrapped revocation-check error instead):
the marker TTL is the access-token duration, shorter than the remaining
refresh lifetime. -/
theorem revokedRefresh_outlives_marker :
    revokeToken cfg0 cacheEmpty 0 tokR = .ok cacheRevokedR
    ∧ (50 : Int) < tokR.exp
    ∧ validateToken km0 cacheRevokedR 50 tokR .refresh
        = .error (.revocationCheckFailed .keyNotFound)
    ∧ validateToken km0 cacheRevokedR 50 tokR .refresh ≠ .error .revoked := by
  refine ⟨rfl, by decide, rfl, ?_⟩
  decide

/-- Claim C2 (amended): after RevokeToken succeeds at instant nr, every
ValidateToken on that token, of any requested kind, performed before
nr + AccessTokenDuration fails with the revoked error; the marker lives
for AccessTokenDuration regardless of the revoked token kind. -/
theorem validate_after_revoke_is_revoked (cfg : TokenConfig) (km : KeySource)
    (c c' : CacheState) (nr nv : Int) (tok : SignedToken) (expected : TokenType)
    (hrev : revokeToken cfg c nr tok = .ok c')
    (hn : nv < nr + cfg.accessTokenDuration) :
    validateToken km c' nv tok expected = .error .revoked := by
  unfold revokeToken at hrev
  by_cases hr : c.reachable
  · simp only [hr, if_true, Except.ok.injEq] at hrev
    subst hrev
    simp [validateToken, isTokenRevoked, cacheGetRevoked, hr, lookupMarker, hn]
  · simp [hr] at hrev

/-- Claim C2 witness: the amended theorem applied to the concrete revoke
of tokR at instant 0 under cfg0, validated at instant 5. -/
theorem validate_after_revoke_is_revoked_witness :
    validateToken km0 cacheRevokedR 5 tokR .refresh = .error .revoked :=
  validate_after_revoke_is_revoked cfg0 km0 cacheEmpty cacheRevokedR 0 5 tokR
    .refresh rfl (by decide)

/-- Claim C3: whenever the revocation-registry read performed during
validation fails with any cache error, ValidateToken returns the wrapped
revocation-check error and never proceeds to return claims. -/
theorem validate_fails_closed (km : KeySource) (c : CacheState) (now : Int)
    (tok : SignedToken) (expected : TokenType) (e : CacheErr)
    (h : cacheGetRevoked c now tok = .error e) :
    validateToken km c now tok expected = .error (.revocationCheckFailed e) := by
  unfold validateToken isTokenRevoked
  rw [h]

/-- Claim C3 witness: with the store unreachable, validation of tok0
returns the wrapped connection error. -/
theorem validate_fails_closed_witness :
    validateToken km0 cacheDown 5 tok0 .access
      = .error (.revocationCheckFailed .connectionFailed) :=
  validate_fails_closed km0 cacheDown 5 tok0 .access .connectionFailed rfl

/-- Claim C5: a token whose embedded kind differs from the requested kind
never validates to claims, and on the clean path (revocation read reports
false, signing key fetched, token not yet expired) the failure is an
invalid-token class error: non-HMAC method, wrong signature (the key of
the requested kind), or the explicit token-type mismatch. -/
theorem validate_wrong_kind_rejected (km : KeySource) (c : CacheState)
    (now : Int) (tok : SignedToken) (expected : TokenType)
    (hne : tok.tokenType ≠ expected) :
    (∀ cl, validateToken km c now tok expected ≠ .ok cl)
    ∧ (∀ key, isTokenRevoked c now tok = .ok false → km expected = .ok key →
        now < tok.exp →
        ∃ e, validateToken km c now tok expected = .error e
          ∧ e.isInvalidToken = true) := by
  constructor
  · intro cl hcl
    unfold validateToken at hcl
    cases hrv : isTokenRevoked c now tok with
    | error e => rw [hrv] at hcl; exact absurd hcl (by simp)
    | ok b =>
      rw [hrv] at hcl
      cases b with
      | true => exact absurd hcl (by simp)
      | false =>
        cases hkm : km expected with
        | error e => rw [hkm] at hcl; exact absurd hcl (by simp)
        | ok key =>
          rw [hkm] at hcl
          by_cases h1 : tok.alg.isHMAC = false
          · simp [h1] at hcl
          · by_cases h2 : tok.sigKey = key
            · by_cases h3 : tok.exp ≤ now
              · simp [h1, h2, h3] at hcl
              · simp [h1, h2, h3, hne] at hcl
            · simp [h1, h2] at hcl
  · intro key h1 h2 h3
    unfold validateToken
    rw [h1, h2]
    cases halg : tok.alg with
    | rsa => exact ⟨.parseBadMethod, by simp [SigningAlg.isHMAC], by decide⟩
    | hs256 =>
      by_cases h4 : tok.sigKey = key
      · refine ⟨.invalidTokenType, ?_, by decide⟩
        have h5 : ¬ tok.exp ≤ now := by omega
        simp [SigningAlg.isHMAC, h4, h5, hne]
      · exact ⟨.parseBadSignature, by simp [SigningAlg.isHMAC, h4], by decide⟩

/-- Claim C5 witness: the theorem applied to the access token tok0
validated as a refresh token, with the one store state whose revocation
read reports false without error. -/
theorem validate_wrong_kind_rejected_witness :
    ∃ e, validateToken km0 cacheFalseMarker 5 tok0 .refresh = .error e
      ∧ e.isInvalidToken = true :=
  (validate_wrong_kind_rejected km0 cacheFalseMarker 5 tok0 .refresh
    (by decide)).2 key0 (by decide) rfl (by decide)

/-- Claim C7: whenever the distributed-tier read of the encoded signing key
fails for any reason (store unreachable or key absent),
RedisKeyManager.GetSigningKey returns exactly the local-tier
provisioning/retrieval result and surfaces no error. -/
theorem redis_key_falls_back (c : CacheState) (st : LocalKeys)
    (fresh : SigningKey) (ty : TokenType) (e : CacheErr)
    (h : cacheGetKey c ty = .error e) :
    redisGetSigningKey c st fresh ty = .ok (localGetSigningKey st fresh ty) := by
  unfold redisGetSigningKey
  rw [h]

/-- Claim C7 witness: with the store unreachable and an empty local tier,
the distributed manager returns the freshly provisioned local key. -/
theorem redis_key_falls_back_witness :
    redisGetSigningKey cacheDown [] key0 .access
      = .ok (localGetSigningKey [] key0 .access) :=
  redis_key_falls_back cacheDown [] key0 .access .connectionFailed rfl

/-- Claim C9: IsTokenRevoked returns the not-found cache error for any
token whose fingerprint has no entry in the reachable store, rather than
the pair of false and no error; and it reports revoked (true without
error) only when a live marker storing true exists. -/
theorem isTokenRevoked_errors_when_absent (c : CacheState) (now : Int)
    (tok : SignedToken) :
    (c.reachable = true → lookupMarker c.revoked tok = none →
       isTokenRevoked c now tok = .error .keyNotFound)
    ∧ (isTokenRevoked c now tok = .ok true →
       ∃ e : Int, lookupMarker c.revoked tok = some (true, e) ∧ now < e) := by
  constructor
  · intro h1 h2
    simp [isTokenRevoked, cacheGetRevoked, h1, h2]
  · intro h
    unfold isTokenRevoked cacheGetRevoked at h
    by_cases hr : c.reachable = false
    · simp [hr] at h
    · simp [hr] at h
      cases hm : lookupMarker c.revoked tok with
      | none => rw [hm] at h; exact absurd h (by simp)
      | some ve =>
        obtain ⟨v, e⟩ := ve
        rw [hm] at h
        by_cases he : now < e
        · simp [he] at h
          subst h
          exact ⟨e, rfl, he⟩
        · simp [he] at h

/-- Claim C9 witness: the theorem applied to the empty reachable store and
tok0. -/
theorem isTokenRevoked_errors_when_absent_witness :
    isTokenRevoked cacheEmpty 5 tok0 = .error .keyNotFound :=
  (isTokenRevoked_errors_when_absent cacheEmpty 5 tok0).1 rfl rfl

/-! Section: Helper lemmas for the password engine -/

theorem getD_set_self (p : List Char) (i : Nat) (x : Char) (h : i < p.length) :
    (p.set i x).getD i ' ' = x := by
  induction p generalizing i with
  | nil => simp at h
  | cons hd tl ih =>
    cases i with
    | zero => simp
    | succ n => simpa using ih n (by simpa using h)

theorem getD_set_ne (p : List Char) (i j : Nat) (x : Char) (hij : i ≠ j) :
    (p.set i x).getD j ' ' = p.getD j ' ' := by
  induction p generalizing i j with
  | nil => simp
  | cons hd tl ih =>
    cases i with
    | zero =>
      cases j with
      | zero => exact absurd rfl hij
      | succ m => simp
    | succ n =>
      cases j with
      | zero => simp
      | succ m => simpa using ih n m (by omega)

theorem count_set_add (p : List Char) (i : Nat) (x a : Char) (h : i < p.length) :
    (p.set i x).count a + (if p.getD i ' ' == a then 1 else 0)
      = p.count a + (if x == a then 1 else 0) := by
  induction p generalizing i with
  | nil => simp at h
  | cons hd tl ih =>
    cases i with
    | zero =>
      simp only [List.set_cons_zero, List.getD_cons_zero, List.count_cons]
      omega
    | succ n =>
      have := ih n (by simpa using h)
      simp only [List.set_cons_succ, List.getD_cons_succ, List.count_cons]
      omega

theorem swapL_length (p : List Char) (i j : Nat) : (swapL p i j).length = p.length := by
  simp [swapL]

theorem swapL_count (p : List Char) (i j : Nat) (hi : i < p.length)
    (hj : j < p.length) (a : Char) : (swapL p i j).count a = p.count a := by
  unfold swapL
  by_cases hij : i = j
  · subst hij
    have h1 := count_set_add p i (p.getD i ' ') a hi
    have h2 := count_set_add (p.set i (p.getD i ' ')) i (p.getD i ' ') a
      (by simpa using hi)
    rw [getD_set_self p i _ hi] at h2
    omega
  · have h1 := count_set_add p i (p.getD j ' ') a hi
    have h2 := count_set_add (p.set i (p.getD j ' ')) j (p.getD i ' ') a
      (by simpa using hj)
    rw [getD_set_ne p i j _ hij] at h2
    omega

theorem fillN_some (ac : List Char) (b : Nat → Nat) (hac : ac.length ≠ 0) :
    ∀ (n i : Nat) (p : List Char), ∃ q, fillN ac b i n p = some q
      ∧ q.length = p.length + n ∧ ∀ c ∈ p, c ∈ q := by
  intro n
  induction n with
  | zero => exact fun i p => ⟨p, rfl, by simp, fun c h => h⟩
  | succ m ih =>
    intro i p
    obtain ⟨q, hq, hlen, hmem⟩ := ih (i + 1) (p ++ [ac.getD (b i % ac.length) ' '])
    refine ⟨q, ?_, ?_, ?_⟩
    · show (if ac.length = 0 then none
        else fillN ac b (i + 1) m (p ++ [ac.getD (b i % ac.length) ' '])) = some q
      rw [if_neg hac]
      exact hq
    · rw [hlen]; simp; omega
    · exact fun c hc => hmem c (by simp [hc])

theorem shuffleFrom_some (b : Nat → Nat) : ∀ (i : Nat) (p : List Char),
    i ≤ 254 → i < p.length →
    ∃ q, shuffleFrom b i p = some q ∧ q.length = p.length
      ∧ ∀ a : Char, q.count a = p.count a := by
  intro i
  induction i with
  | zero => exact fun p _ _ => ⟨p, rfl, rfl, fun _ => rfl⟩
  | succ n ih =>
    intro p hle hlt
    have hm : (n + 2) % 256 = n + 2 := Nat.mod_eq_of_lt (by omega)
    have hm0 : ¬ (n + 2) % 256 = 0 := by omega
    have hjlt : b (n + 1) % ((n + 2) % 256) < p.length := by
      have := Nat.mod_lt (b (n + 1)) (y := (n + 2) % 256) (by omega)
      omega
    have hswlen : (swapL p (n + 1) (b (n + 1) % ((n + 2) % 256))).length = p.length :=
      swapL_length p _ _
    obtain ⟨q, hq, hqlen, hqcount⟩ :=
      ih (swapL p (n + 1) (b (n + 1) % ((n + 2) % 256))) (by omega)
        (by rw [hswlen]; omega)
    refine ⟨q, ?_, ?_, ?_⟩
    · simp only [shuffleFrom]
      rw [if_neg hm0]
      exact hq
    · rw [hqlen, hswlen]
    · intro a
      rw [hqcount a, swapL_count p _ _ (by omega) hjlt a]

theorem upper_class_getD (n : Nat) :
    isUpperA (upperLetters.getD (n % upperLetters.length) ' ') = true := by
  have hall : ∀ i, i < 26 → isUpperA (upperLetters.getD i ' ') = true := by decide
  exact hall _ (Nat.mod_lt _ (by decide))

theorem lower_class_getD (n : Nat) :
    isLowerA (lowerLetters.getD (n % lowerLetters.length) ' ') = true := by
  have hall : ∀ i, i < 26 → isLowerA (lowerLetters.getD i ' ') = true := by decide
  exact hall _ (Nat.mod_lt _ (by decide))

theorem digit_class_getD (n : Nat) :
    isDigitA (digitChars.getD (n % digitChars.length) ' ') = true := by
  have hall : ∀ i, i < 10 → isDigitA (digitChars.getD i ' ') = true := by decide
  exact hall _ (Nat.mod_lt _ (by decide))

theorem special_class_getD (n : Nat) :
    isSpecialA (specialChars.getD (n % specialChars.length) ' ') = true := by
  have hall : ∀ i, i < 26 → isSpecialA (specialChars.getD i ' ') = true := by decide
  exact hall _ (Nat.mod_lt _ (by decide))

theorem mandatory_length (cfg : PasswordConfig) (b : Nat → Nat) :
    (mandatoryChars cfg b).length = enabledCount cfg := by
  cases h1 : cfg.requireUppercase <;> cases h2 : cfg.requireLowercase <;>
    cases h3 : cfg.requireNumbers <;> cases h4 : cfg.requireSpecialChars <;>
      simp [mandatoryChars, enabledCount, h1, h2, h3, h4]

theorem enabledCount_le_four (cfg : PasswordConfig) : enabledCount cfg ≤ 4 := by
  cases h1 : cfg.requireUppercase <;> cases h2 : cfg.requireLowercase <;>
    cases h3 : cfg.requireNumbers <;> cases h4 : cfg.requireSpecialChars <;>
      simp [enabledCount, h1, h2, h3, h4]

theorem allChars_len_pos (cfg : PasswordConfig) (h : 0 < enabledCount cfg) :
    0 < (allChars cfg).length := by
  cases h1 : cfg.requireUppercase <;> cases h2 : cfg.requireLowercase <;>
    cases h3 : cfg.requireNumbers <;> cases h4 : cfg.requireSpecialChars <;>
      simp [enabledCount, h1, h2, h3, h4] at h ⊢ <;>
        simp [allChars, h1, h2, h3, h4, upperLetters, lowerLetters, digitChars,
          specialChars]

theorem mandatory_upper (cfg : PasswordConfig) (b : Nat → Nat)
    (h : cfg.requireUppercase = true) :
    ∃ c ∈ mandatoryChars cfg b, isUpperA c = true :=
  ⟨upperLetters.getD (b 0 % upperLetters.length) ' ',
    by simp [mandatoryChars, h], upper_class_getD _⟩

theorem mandatory_lower (cfg : PasswordConfig) (b : Nat → Nat)
    (h : cfg.requireLowercase = true) :
    ∃ c ∈ mandatoryChars cfg b, isLowerA c = true :=
  ⟨lowerLetters.getD (b 1 % lowerLetters.length) ' ',
    by simp [mandatoryChars, h], lower_class_getD _⟩

theorem mandatory_digit (cfg : PasswordConfig) (b : Nat → Nat)
    (h : cfg.requireNumbers = true) :
    ∃ c ∈ mandatoryChars cfg b, isDigitA c = true :=
  ⟨digitChars.getD (b 2 % digitChars.length) ' ',
    by simp [mandatoryChars, h], digit_class_getD _⟩

theorem mandatory_special (cfg : PasswordConfig) (b : Nat → Nat)
    (h : cfg.requireSpecialChars = true) :
    ∃ c ∈ mandatoryChars cfg b, isSpecialA c = true :=
  ⟨specialChars.getD (b 3 % specialChars.length) ' ',
    by simp [mandatoryChars, h], special_class_getD _⟩

/-! Section: Claim theorems: password policy engine -/

/-- Claim C10: with every character class disabled, the allChars alphabet
is empty, the fill loop reduces a byte modulo zero, and
GenerateRandomPassword panics (none) instead of returning a password or an
error, for every policy and every entropy stream. -/
theorem generate_no_classes_panics (cfg : PasswordConfig) (stream : Nat → Nat)
    (h1 : cfg.requireUppercase = false) (h2 : cfg.requireLowercase = false)
    (h3 : cfg.requireNumbers = false) (h4 : cfg.requireSpecialChars = false) :
    generateRandomPassword cfg stream = none := by
  have hm : mandatoryChars cfg (fun i => stream i % 256) = [] := by
    simp [mandatoryChars, h1, h2, h3, h4]
  have hac : allChars cfg = [] := by
    simp [allChars, h1, h2, h3, h4]
  obtain ⟨k, hk⟩ : ∃ k, genLength cfg = k + 1 :=
    ⟨max (enabledCount cfg) cfg.minLength + 3, by unfold genLength; omega⟩
  simp only [generateRandomPassword, hm, hac, List.length_nil, Nat.sub_zero, hk]
  simp [fillN]

/-- Claim C10 witness: the theorem applied to the concrete all-disabled
policy and the zero stream. -/
theorem generate_no_classes_panics_witness :
    generateRandomPassword cfgNone zeros = none :=
  generate_no_classes_panics cfgNone zeros rfl rfl rfl rfl

/-- Claim C4, counterexample: under the numbers-only policy cfgNum (one
enabled class, minimum length 4) and the all-zero entropy stream,
GenerateRandomPassword returns the eight-character all-zero password,
which ValidatePassword rejects (four consecutive digits match the
weak-pattern deny-list), so the generated password does NOT always pass
validation under the same policy. -/
theorem generated_password_can_fail_validation :
    generateRandomPassword cfgNum zeros = some "00000000".toList
    ∧ validatePassword cfgNum "00000000".toList = some .weakPattern := by
  constructor
  · rfl
  · rfl

/-- Claim C4 (amended): for every policy with at least one enabled class
and a configured minimum small enough for the final byte-index conversion
not to overflow (at most 251), and for EVERY entropy stream, the generated
password has exactly the computed length (the larger of the class count
and the minimum, plus the fixed margin of four), hence is at least
MinLength long, and contains at least one character of each enabled class;
it need not pass the MaxLength or weak-pattern checks of
ValidatePassword. -/
theorem generate_meets_enabled_classes (cfg : PasswordConfig) (stream : Nat → Nat)
    (hcls : 0 < enabledCount cfg) (hmin : cfg.minLength ≤ 251) :
    ∃ pw, generateRandomPassword cfg stream = some pw
      ∧ pw.length = genLength cfg
      ∧ cfg.minLength ≤ pw.length
      ∧ (cfg.requireUppercase = true → ∃ c ∈ pw, isUpperA c = true)
      ∧ (cfg.requireLowercase = true → ∃ c ∈ pw, isLowerA c = true)
      ∧ (cfg.requireNumbers = true → ∃ c ∈ pw, isDigitA c = true)
      ∧ (cfg.requireSpecialChars = true → ∃ c ∈ pw, isSpecialA c = true) := by
  have hacpos : 0 < (allChars cfg).length := allChars_len_pos cfg hcls
  have hp0len : (mandatoryChars cfg (fun i => stream i % 256)).length
      = enabledCount cfg := mandatory_length cfg _
  have hmax1 : enabledCount cfg ≤ max (enabledCount cfg) cfg.minLength :=
    le_max_left _ _
  have hmax2 : cfg.minLength ≤ max (enabledCount cfg) cfg.minLength :=
    le_max_right _ _
  have hmax3 : max (enabledCount cfg) cfg.minLength ≤ 251 :=
    max_le (le_trans (enabledCount_le_four cfg) (by omega)) hmin
  obtain ⟨f, hf, hflen, hfmem⟩ :=
    fillN_some (allChars cfg) (fun i => stream i % 256) (by omega)
      (genLength cfg - (mandatoryChars cfg (fun i => stream i % 256)).length)
      (mandatoryChars cfg (fun i => stream i % 256)).length
      (mandatoryChars cfg (fun i => stream i % 256))
  have hflen2 : f.length = genLength cfg := by
    rw [hflen, hp0len]
    unfold genLength
    omega
  obtain ⟨q, hq, hqlen, hqcount⟩ :=
    shuffleFrom_some (fun i => stream i % 256) (genLength cfg - 1) f
      (by unfold genLength; omega)
      (by rw [hflen2]; unfold genLength; omega)
  have hqmem : ∀ c ∈ mandatoryChars cfg (fun i => stream i % 256), c ∈ q := by
    intro c hc
    have h1 : c ∈ f := hfmem c hc
    rw [← List.count_pos_iff] at h1 ⊢
    rw [hqcount]
    exact h1
  refine ⟨q, ?_, ?_, ?_, ?_, ?_, ?_, ?_⟩
  · show (match fillN (allChars cfg) (fun i => stream i % 256)
        (mandatoryChars cfg (fun i => stream i % 256)).length
        (genLength cfg - (mandatoryChars cfg (fun i => stream i % 256)).length)
        (mandatoryChars cfg (fun i => stream i % 256)) with
      | none => none
      | some filled =>
          shuffleFrom (fun i => stream i % 256) (genLength cfg - 1) filled)
      = some q
    rw [hf]
    exact hq
  · rw [hqlen, hflen2]
  · rw [hqlen, hflen2]; unfold genLength; omega
  · intro h
    obtain ⟨c, hcm, hcu⟩ := mandatory_upper cfg _ h
    exact ⟨c, hqmem c hcm, hcu⟩
  · intro h
    obtain ⟨c, hcm, hcu⟩ := mandatory_lower cfg _ h
    exact ⟨c, hqmem c hcm, hcu⟩
  · intro h
    obtain ⟨c, hcm, hcu⟩ := mandatory_digit cfg _ h
    exact ⟨c, hqmem c hcm, hcu⟩
  · intro h
    obtain ⟨c, hcm, hcu⟩ := mandatory_special cfg _ h
    exact ⟨c, hqmem c hcm, hcu⟩

/-- Claim C4 witness: the amended theorem applied to the all-classes
policy cfg8 and the zero stream. -/
theorem generate_meets_enabled_classes_witness :
    ∃ pw, generateRandomPassword cfg8 zeros = some pw
      ∧ pw.length = genLength cfg8
      ∧ cfg8.minLength ≤ pw.length
      ∧ (cfg8.requireUppercase = true → ∃ c ∈ pw, isUpperA c = true)
      ∧ (cfg8.requireLowercase = true → ∃ c ∈ pw, isLowerA c = true)
      ∧ (cfg8.requireNumbers = true → ∃ c ∈ pw, isDigitA c = true)
      ∧ (cfg8.requireSpecialChars = true → ∃ c ∈ pw, isSpecialA c = true) :=
  generate_meets_enabled_classes cfg8 zeros (by decide) (by decide)

/-- Claim C6: evaluation at the failing input.  The password of eight
characters starting with an uppercase B followed by a triple lowercase a,
a digit, a special character and two fillers contains the same character
repeated three times, satisfies all four class requirements and the length
bounds, and matches no other deny-list entry, yet ValidatePassword ACCEPTS
it: the repeated-character pattern is a backreference that RE2 rejects at
compile time and the discarded error makes that check dead code, contrary
to the source comment announcing it.  The second conjunct documents the
part of the claim the code does honor: the word password is rejected
case-insensitively even with all classes present. -/
theorem repeated_chars_accepted_eval :
    validatePassword cfg8 "Baaa1!cd".toList = none
    ∧ validatePassword cfg8 "Password1!".toList = some .weakPattern := by
  constructor
  · rfl
  · rfl

/-- Claim C8: every password the validator accepts under a policy with all
four classes required has its length within the configured bounds and
contains at least one uppercase letter, one lowercase letter, one digit
and one special character. -/
theorem validate_accept_implies_classes (cfg : PasswordConfig) (p : List Char)
    (h1 : cfg.requireUppercase = true) (h2 : cfg.requireLowercase = true)
    (h3 : cfg.requireNumbers = true) (h4 : cfg.requireSpecialChars = true)
    (hv : validatePassword cfg p = none) :
    cfg.minLength ≤ p.length ∧ p.length ≤ cfg.maxLength
    ∧ (∃ c ∈ p, isUpperA c = true) ∧ (∃ c ∈ p, isLowerA c = true)
    ∧ (∃ c ∈ p, isDigitA c = true) ∧ (∃ c ∈ p, isSpecialA c = true) := by
  unfold validatePassword at hv
  by_cases c1 : p.length < cfg.minLength
  · simp [c1] at hv
  by_cases c2 : cfg.maxLength < p.length
  · simp [c1, c2] at hv
  have hu : hasUpper p = true := by
    by_contra hc
    have hcf : hasUpper p = false := by simpa using hc
    simp [c1, c2, h1, hcf] at hv
  have hl : hasLower p = true := by
    by_contra hc
    have hcf : hasLower p = false := by simpa using hc
    simp [c1, c2, h1, h2, hu, hcf] at hv
  have hn : hasNumber p = true := by
    by_contra hc
    have hcf : hasNumber p = false := by simpa using hc
    simp [c1, c2, h1, h2, h3, hu, hl, hcf] at hv
  have hs : hasSpecial p = true := by
    by_contra hc
    have hcf : hasSpecial p = false := by simpa using hc
    simp [c1, c2, h1, h2, h3, h4, hu, hl, hn, hcf] at hv
  refine ⟨by omega, by omega, ?_, ?_, ?_, ?_⟩
  · obtain ⟨c, hcm, hcp⟩ := List.any_eq_true.mp hu
    exact ⟨c, hcm, hcp⟩
  · obtain ⟨c, hcm, hcp⟩ := List.any_eq_true.mp hl
    exact ⟨c, hcm, (Bool.and_eq_true _ _ |>.mp hcp).2⟩
  · obtain ⟨c, hcm, hcp⟩ := List.any_eq_true.mp hn
    exact ⟨c, hcm, (Bool.and_eq_true _ _ |>.mp hcp).2⟩
  · obtain ⟨c, hcm, hcp⟩ := List.any_eq_true.mp hs
    exact ⟨c, hcm, (Bool.and_eq_true _ _ |>.mp hcp).2⟩

/-- Claim C8 witness: the theorem applied to the all-classes policy cfg8
and a concrete accepted password. -/
theorem validate_accept_implies_classes_witness :
    cfg8.minLength ≤ "Xy7$abcd".toList.length
    ∧ "Xy7$abcd".toList.length ≤ cfg8.maxLength
    ∧ (∃ c ∈ "Xy7$abcd".toList, isUpperA c = true)
    ∧ (∃ c ∈ "Xy7$abcd".toList, isLowerA c = true)
    ∧ (∃ c ∈ "Xy7$abcd".toList, isDigitA c = true)
    ∧ (∃ c ∈ "Xy7$abcd".toList, isSpecialA c = true) :=
  validate_accept_implies_classes cfg8 "Xy7$abcd".toList rfl rfl rfl rfl (by rfl)

end Ident
